import Mathlib

/-!
Shallow embedding of the flashrom Loongson-3 SPI master driver
(loongson3_spi.c): register constants, the MMIO machine model, the
bring-up (`loongson3_spi_init`), tear-down (`loongson3_spi_shutdown`)
and transaction (`loongson3_spi_send_command`) operations, together
with theorems settling the specification claims about them.

Modelling conventions:
* registers are bytes, represented as `Nat` reduced `% 256` on write;
* the Status (SPSR) and FIFO-pop reads are hardware driven: their
  values come from oracles indexed by a per-register read counter;
* the Control (SPCR), Read-Engine-Enable (SFCP) and Soft-Chip-Select
  (SOFTCS) registers are storage: a read returns the last value written;
* every MMIO access is recorded in an event trace, in program order;
* the C busy-wait loops are embedded with explicit poll fuel, returning
  `none` when the wait never unblocks within the fuel;
* `writearr[i]` in C is `List.get?` in the model; an out-of-range
  access yields a designated `garbage` byte and sets an `oob` flag,
  mirroring the unspecified byte an out-of-bounds C read produces.
-/

/-- Register offsets and bit masks, from the defines of loongson3_spi.c. -/
def SPICTRL_SPCR : Nat := 0x0

def SPCR_MSTR : Nat := 1 <<< 4

def SPCR_SPE : Nat := 1 <<< 6

def SPICTRL_SPSR : Nat := 0x1

def SPSR_RFEMPTY : Nat := 1 <<< 0

def SPICTRL_FIFO : Nat := 0x2

def SPICTRL_SFCP : Nat := 0x4

def SFCP_MEMEN : Nat := 1 <<< 0

def SPICTRL_SOFTCS : Nat := 0x5

/-- Soft chip-select encodings: firmware flash is always on CS0. -/
def SOFTCS_ASSERT : Nat := (0 <<< 4) ||| (1 <<< 0)

def SOFTCS_DESSERT : Nat := (1 <<< 4) ||| (1 <<< 0)

def LOONGSON64C_SPI_BASE : Nat := 0x1fe00220

def LOONGSON64G_SPI_BASE : Nat := 0x1fe001f0

def LOONGSON3_SPI_REG_SIZE : Nat := 0x10

/-- One MMIO event: a byte read or a byte write at a register offset. -/
inductive Ev where
  | rd (off : Nat) (val : Nat)
  | wr (off : Nat) (val : Nat)
deriving DecidableEq, Repr

/-- Hardware oracles: the value returned by the n-th Status read and by
the n-th FIFO pop, over the whole run. -/
structure Hw where
  statusFn : Nat → Nat
  fifoFn : Nat → Nat

/-- Storage registers of the controller (read back as last written). -/
structure Regs where
  spcr : Nat
  sfcp : Nat
  softcs : Nat
deriving DecidableEq, Repr

/-- Machine state threaded through the driver: storage registers, the
hardware-read counters selecting oracle values, and the MMIO trace. -/
structure Mach where
  regs : Regs
  spsrReads : Nat
  fifoReads : Nat
  trace : List Ev
deriving DecidableEq, Repr

/-- Embedding of mmio_writeb at a register offset: updates storage
registers (a FIFO or Status write is push-only / ignored storage-wise)
and records the event. Values are truncated to a byte. -/
def mmioWrite (m : Mach) (off val : Nat) : Mach :=
  let regs :=
    if off = SPICTRL_SPCR then { m.regs with spcr := val % 256 }
    else if off = SPICTRL_SFCP then { m.regs with sfcp := val % 256 }
    else if off = SPICTRL_SOFTCS then { m.regs with softcs := val % 256 }
    else m.regs
  { m with regs := regs, trace := m.trace ++ [Ev.wr off (val % 256)] }

/-- Embedding of mmio_readb: Status and FIFO reads consult the hardware
oracles and bump the corresponding counter; storage registers return
the stored value. The event is recorded. -/
def mmioRead (hw : Hw) (m : Mach) (off : Nat) : Nat × Mach :=
  if off = SPICTRL_SPSR then
    let v := hw.statusFn m.spsrReads % 256
    (v, { m with spsrReads := m.spsrReads + 1, trace := m.trace ++ [Ev.rd off v] })
  else if off = SPICTRL_FIFO then
    let v := hw.fifoFn m.fifoReads % 256
    (v, { m with fifoReads := m.fifoReads + 1, trace := m.trace ++ [Ev.rd off v] })
  else
    let v :=
      if off = SPICTRL_SPCR then m.regs.spcr % 256
      else if off = SPICTRL_SFCP then m.regs.sfcp % 256
      else if off = SPICTRL_SOFTCS then m.regs.softcs % 256
      else 0
    (v, { m with trace := m.trace ++ [Ev.rd off v] })

/-- Busy-wait of send_command: while (mmio_readb(SPSR) & SPSR_RFEMPTY);
polls until the read-FIFO-empty bit is clear, spending one fuel per
poll; `none` if the wait never unblocks. -/
def waitRFNonEmpty (hw : Hw) : Nat → Mach → Option Mach
  | 0, _ => none
  | fuel + 1, m =>
    let p := mmioRead hw m SPICTRL_SPSR
    if p.1 &&& SPSR_RFEMPTY ≠ 0 then waitRFNonEmpty hw fuel p.2 else some p.2

/-- Reading writearr[i] in the model: in-range gives the stored byte,
out-of-range gives the garbage byte and reports the overrun. -/
def pushByte (writearr : List Nat) (garbage i : Nat) : Nat × Bool :=
  match writearr[i]? with
  | some b => (b, false)
  | none => (garbage, true)

/-- State threaded through the two loops of send_command. -/
structure SCSt where
  m : Mach
  readarr : List Nat
  oob : Bool
deriving DecidableEq, Repr

/-- Write phase of send_command (lines 202-209): for each of `n`
iterations starting at index `i`, push writearr[i] into the FIFO, wait
for read-FIFO-non-empty, pop and discard one byte. -/
def writeLoop (hw : Hw) (fuel : Nat) (writearr : List Nat) (garbage : Nat) :
    Nat → Nat → SCSt → Option SCSt
  | 0, _, st => some st
  | n + 1, i, st =>
    let pb := pushByte writearr garbage i
    let m1 := mmioWrite st.m SPICTRL_FIFO pb.1
    match waitRFNonEmpty hw fuel m1 with
    | none => none
    | some m2 =>
      let p := mmioRead hw m2 SPICTRL_FIFO
      writeLoop hw fuel writearr garbage n (i + 1)
        { st with m := p.2, oob := st.oob || pb.2 }

/-- Read phase of send_command (lines 211-218): for each of `n`
iterations starting at index `i`, push writearr[i] into the FIFO, wait
for read-FIFO-non-empty, pop one byte and append it to readarr. -/
def readLoop (hw : Hw) (fuel : Nat) (writearr : List Nat) (garbage : Nat) :
    Nat → Nat → SCSt → Option SCSt
  | 0, _, st => some st
  | n + 1, i, st =>
    let pb := pushByte writearr garbage i
    let m1 := mmioWrite st.m SPICTRL_FIFO pb.1
    match waitRFNonEmpty hw fuel m1 with
    | none => none
    | some m2 =>
      let p := mmioRead hw m2 SPICTRL_FIFO
      readLoop hw fuel writearr garbage n (i + 1)
        { m := p.2, readarr := st.readarr ++ [p.1], oob := st.oob || pb.2 }

/-- Result of a send_command run. -/
structure SCResult where
  ret : Nat
  readarr : List Nat
  m : Mach
  oob : Bool
deriving DecidableEq, Repr

/-- Embedding of loongson3_spi_send_command (lines 191-223): assert
soft chip-select, run the write phase over writecnt bytes, run the read
phase over readcnt iterations (the index restarting at 0), deassert
chip-select, return 0. -/
def loongson3_spi_send_command (hw : Hw) (fuel garbage : Nat)
    (writecnt readcnt : Nat) (writearr : List Nat) (m0 : Mach) : Option SCResult :=
  match writeLoop hw fuel writearr garbage writecnt 0
      ⟨mmioWrite m0 SPICTRL_SOFTCS SOFTCS_ASSERT, [], false⟩ with
  | none => none
  | some st1 =>
    match readLoop hw fuel writearr garbage readcnt 0 st1 with
    | none => none
    | some st2 =>
      some ⟨0, st2.readarr, mmioWrite st2.m SPICTRL_SOFTCS SOFTCS_DESSERT, st2.oob⟩

/-- Platform identifier test for the Loongson 64C group (lines 77-95). -/
def cpu_is_loongson64c (cpu : String) : Bool :=
  cpu = "3b1500" || cpu = "3a2000" || cpu = "3b2000" || cpu = "3a3000" || cpu = "3b3000"

/-- Platform identifier test for the Loongson 64G group (lines 97-106). -/
def cpu_is_loongson64g (cpu : String) : Bool :=
  cpu = "3a4000" || cpu = "3b4000"

/-- Record of one rphysmap call made by init. -/
structure MapCall where
  name : String
  addr : Nat
  size : Nat
deriving DecidableEq, Repr

/-- Environment of init: the -cpu programmer parameter (none = absent),
the result of mapping a physical base (none = NULL), whether
register_shutdown succeeds, and the hardware oracles. -/
structure InitEnv where
  cpu : Option String
  mapFn : Nat → Option Nat
  regShutdownOk : Bool
  hw : Hw

/-- Result of an init run: C return status, the spictrl_base handle
(none = NULL), rphysmap calls made, and the final machine state. -/
structure InitResult where
  ret : Nat
  base : Option Nat
  mapCalls : List MapCall
  m : Mach
deriving DecidableEq, Repr

/-- Drain loop of init (lines 166-168): while Status reports the read
FIFO non-empty, pop and discard a byte; one fuel per Status poll. -/
def drainLoop (hw : Hw) : Nat → Mach → Option Mach
  | 0, _ => none
  | fuel + 1, m =>
    let p := mmioRead hw m SPICTRL_SPSR
    if p.1 &&& SPSR_RFEMPTY = 0 then
      let q := mmioRead hw p.2 SPICTRL_FIFO
      drainLoop hw fuel q.2
    else some p.2

/-- Register configuration sequence of init (lines 152-163): deassert
chip-select, set master and enable bits of SPCR by read-modify-write,
clear the MEMEN bit of SFCP by read-modify-write. -/
def initCfgSeq (hw : Hw) (m1 : Mach) : Mach :=
  let m2 := mmioWrite m1 SPICTRL_SOFTCS SOFTCS_DESSERT
  let p2 := mmioRead hw m2 SPICTRL_SPCR
  let m4 := mmioWrite p2.2 SPICTRL_SPCR (p2.1 ||| (SPCR_MSTR ||| SPCR_SPE))
  let p3 := mmioRead hw m4 SPICTRL_SFCP
  mmioWrite p3.2 SPICTRL_SFCP (p3.1 &&& (255 ^^^ SFCP_MEMEN))

/-- Continuation of init once a base address has been resolved and
rphysmap attempted (lines 140-171): fail on a NULL mapping, probe
SFCP (the read-engine warning of line 145, kept in source order before
the register_shutdown check of line 149), fail if register_shutdown
fails, run the register configuration sequence, drain the read FIFO,
succeed. -/
def initAfterMap (env : InitEnv) (fuel : Nat) (m0 : Mach)
    (base : Option Nat) (calls : List MapCall) : Option InitResult :=
  match base with
  | none => some ⟨1, none, calls, m0⟩
  | some b =>
    if env.regShutdownOk = false then
      some ⟨1, some b, calls, (mmioRead env.hw m0 SPICTRL_SFCP).2⟩
    else
      match drainLoop env.hw fuel (initCfgSeq env.hw (mmioRead env.hw m0 SPICTRL_SFCP).2) with
      | none => none
      | some m7 => some ⟨0, some b, calls, m7⟩

/-- Embedding of loongson3_spi_init (lines 108-172): resolve the cpu
parameter, pick the 64C or 64G base physical address, map the register
block, then hand over to initAfterMap. An absent or unrecognized cpu
fails with status 1 before any hardware access. -/
def loongson3_spi_init (env : InitEnv) (fuel : Nat) (m0 : Mach) : Option InitResult :=
  match env.cpu with
  | none => some ⟨1, none, [], m0⟩
  | some cpu =>
    if cpu_is_loongson64c cpu then
      initAfterMap env fuel m0 (env.mapFn LOONGSON64C_SPI_BASE)
        [⟨"Loongson64C SPICTRL", LOONGSON64C_SPI_BASE, LOONGSON3_SPI_REG_SIZE⟩]
    else if cpu_is_loongson64g cpu then
      initAfterMap env fuel m0 (env.mapFn LOONGSON64G_SPI_BASE)
        [⟨"Loongson64G SPICTRL", LOONGSON64G_SPI_BASE, LOONGSON3_SPI_REG_SIZE⟩]
    else some ⟨1, none, [], m0⟩

/-- Embedding of loongson3_spi_shutdown (lines 174-189), exactly as
written: the body runs only under the guard if (!spictrl_base), i.e.
only when the handle is NULL; it writes 0x0 to Soft-Chip-Select and
sets the MEMEN bit of SFCP by read-modify-write; returns 0 always. -/
def loongson3_spi_shutdown (hw : Hw) (base : Option Nat) (m0 : Mach) : Nat × Mach :=
  if base.isNone then
    let m1 := mmioWrite m0 SPICTRL_SOFTCS 0x0
    let p := mmioRead hw m1 SPICTRL_SFCP
    let m3 := mmioWrite p.2 SPICTRL_SFCP (p.1 ||| SFCP_MEMEN)
    (0, m3)
  else (0, m0)

/-- Bytes pushed into the FIFO, in order, over a trace. -/
def fifoPushes (t : List Ev) : List Nat :=
  t.filterMap fun e =>
    match e with
    | Ev.wr off v => if off = SPICTRL_FIFO then some v else none
    | Ev.rd _ _ => none

/-- Bytes popped from the FIFO, in order, over a trace. -/
def fifoPops (t : List Ev) : List Nat :=
  t.filterMap fun e =>
    match e with
    | Ev.rd off v => if off = SPICTRL_FIFO then some v else none
    | Ev.wr _ _ => none

/-- Offset of an MMIO event. -/
def evOff : Ev → Nat
  | Ev.rd off _ => off
  | Ev.wr off _ => off

/-- Every event of the trace is at one of the five register offsets. -/
def offsOk (t : List Ev) : Bool :=
  t.all fun e => evOff e = 0x0 || evOff e = 0x1 || evOff e = 0x2 ||
    evOff e = 0x4 || evOff e = 0x5

/-! Concrete fixtures used to exercise the model on closed inputs. -/

/-- Hardware whose Status always reports the read FIFO non-empty (bit 0
clear), so the transaction busy-waits unblock on the first poll; FIFO
pops return 0x40, 0x41, ... in order. -/
def hwReady : Hw := ⟨fun _ => 0, fun n => 0x40 + n⟩

/-- Hardware whose Status always reports the read FIFO empty, so the
drain loop of init exits on its first poll. -/
def hwEmptyFifo : Hw := ⟨fun _ => 1, fun n => n⟩

/-- Hardware whose Status reports the read FIFO non-empty for exactly
the first K polls. -/
def hwDrainK (K : Nat) : Hw := ⟨fun i => if i < K then 0 else 1, fun n => n⟩

/-- A machine with all registers zero, fresh counters and empty trace. -/
def mach0 : Mach := ⟨⟨0, 0, 0⟩, 0, 0, []⟩

/-- A machine whose Control and Read-Engine-Enable registers are
pre-seeded with unrelated bits, to observe read-modify-write framing. -/
def machSeed : Mach := ⟨⟨0xAB, 0xCD, 0x33⟩, 0, 0, []⟩

/-- An init environment selecting a 64C platform, with mapping and
shutdown registration succeeding. -/
def env64c : InitEnv := ⟨some "3b1500", fun _ => some 0x1000, true, hwEmptyFifo⟩

/-- An init environment selecting a 64G platform. -/
def env64g : InitEnv := ⟨some "3a4000", fun _ => some 0x1000, true, hwEmptyFifo⟩

/-- An init environment with an unrecognized platform identifier. -/
def envBad : InitEnv := ⟨some "epyc", fun _ => some 0x1000, true, hwEmptyFifo⟩

/-- An init environment with the cpu parameter absent. -/
def envNoCpu : InitEnv := ⟨none, fun _ => some 0x1000, true, hwEmptyFifo⟩

/-- An init environment selecting 64C with the K-poll drain hardware. -/
def env64cK (K : Nat) : InitEnv := ⟨some "3b1500", fun _ => some 0x1000, true, hwDrainK K⟩

/-- Result of a concrete successful 64C bring-up from a fresh machine. -/
def init64cRun : InitResult :=
  (loongson3_spi_init env64c 2 mach0).getD ⟨1, none, [], mach0⟩

/-- Result of a concrete successful 64G bring-up from a fresh machine. -/
def init64gRun : InitResult :=
  (loongson3_spi_init env64g 2 mach0).getD ⟨1, none, [], mach0⟩

/-- Result of a concrete successful 64C bring-up from the pre-seeded
machine. -/
def initSeedRun : InitResult :=
  (loongson3_spi_init env64c 2 machSeed).getD ⟨1, none, [], machSeed⟩

/-- Result of a concrete identify-style transaction: 1 write byte of a
4-byte buffer, 3 read bytes. -/
def scIdRun : SCResult :=
  (loongson3_spi_send_command hwReady 1 0xEE 1 3 [0x9F, 0xA1, 0xA2, 0xA3] mach0).getD
    ⟨0, [], mach0, false⟩

/-! Trace algebra: the FIFO projections and the offset check distribute
over trace concatenation, and reduce on single events. -/

theorem fifoPushes_append (t1 t2 : List Ev) :
    fifoPushes (t1 ++ t2) = fifoPushes t1 ++ fifoPushes t2 := by
  simp [fifoPushes]

theorem fifoPops_append (t1 t2 : List Ev) :
    fifoPops (t1 ++ t2) = fifoPops t1 ++ fifoPops t2 := by
  simp [fifoPops]

theorem offsOk_append (t1 t2 : List Ev) :
    offsOk (t1 ++ t2) = (offsOk t1 && offsOk t2) := by
  simp [offsOk]

/-! Reduction lemmas for each MMIO access form the driver performs. -/

theorem mmioRead_spsr (hw : Hw) (m : Mach) :
    mmioRead hw m SPICTRL_SPSR =
      (hw.statusFn m.spsrReads % 256,
       { m with spsrReads := m.spsrReads + 1,
                trace := m.trace ++ [Ev.rd SPICTRL_SPSR (hw.statusFn m.spsrReads % 256)] }) := by
  simp [mmioRead]

theorem mmioRead_fifo (hw : Hw) (m : Mach) :
    mmioRead hw m SPICTRL_FIFO =
      (hw.fifoFn m.fifoReads % 256,
       { m with fifoReads := m.fifoReads + 1,
                trace := m.trace ++ [Ev.rd SPICTRL_FIFO (hw.fifoFn m.fifoReads % 256)] }) := by
  simp [mmioRead, SPICTRL_FIFO, SPICTRL_SPSR]

theorem mmioRead_spcr (hw : Hw) (m : Mach) :
    mmioRead hw m SPICTRL_SPCR =
      (m.regs.spcr % 256, { m with trace := m.trace ++ [Ev.rd SPICTRL_SPCR (m.regs.spcr % 256)] }) := by
  simp [mmioRead, SPICTRL_SPCR, SPICTRL_FIFO, SPICTRL_SPSR]

theorem mmioRead_sfcp (hw : Hw) (m : Mach) :
    mmioRead hw m SPICTRL_SFCP =
      (m.regs.sfcp % 256, { m with trace := m.trace ++ [Ev.rd SPICTRL_SFCP (m.regs.sfcp % 256)] }) := by
  simp [mmioRead, SPICTRL_SPCR, SPICTRL_FIFO, SPICTRL_SPSR, SPICTRL_SFCP]

theorem mmioWrite_fifo (m : Mach) (v : Nat) :
    mmioWrite m SPICTRL_FIFO v =
      { m with trace := m.trace ++ [Ev.wr SPICTRL_FIFO (v % 256)] } := by
  simp [mmioWrite, SPICTRL_SPCR, SPICTRL_FIFO, SPICTRL_SFCP, SPICTRL_SOFTCS]

theorem mmioWrite_softcs (m : Mach) (v : Nat) :
    mmioWrite m SPICTRL_SOFTCS v =
      { m with regs := { m.regs with softcs := v % 256 },
               trace := m.trace ++ [Ev.wr SPICTRL_SOFTCS (v % 256)] } := by
  simp [mmioWrite, SPICTRL_SPCR, SPICTRL_SFCP, SPICTRL_SOFTCS]

theorem mmioWrite_spcr (m : Mach) (v : Nat) :
    mmioWrite m SPICTRL_SPCR v =
      { m with regs := { m.regs with spcr := v % 256 },
               trace := m.trace ++ [Ev.wr SPICTRL_SPCR (v % 256)] } := by
  simp [mmioWrite, SPICTRL_SPCR]

theorem mmioWrite_sfcp (m : Mach) (v : Nat) :
    mmioWrite m SPICTRL_SFCP v =
      { m with regs := { m.regs with sfcp := v % 256 },
               trace := m.trace ++ [Ev.wr SPICTRL_SFCP (v % 256)] } := by
  simp [mmioWrite, SPICTRL_SPCR, SPICTRL_SFCP]

theorem fifoPushes_rd (o v : Nat) : fifoPushes [Ev.rd o v] = [] := by
  simp [fifoPushes]

theorem fifoPushes_wr (o v : Nat) :
    fifoPushes [Ev.wr o v] = if o = SPICTRL_FIFO then [v] else [] := by
  by_cases h : o = SPICTRL_FIFO <;> simp [fifoPushes, List.filterMap_cons, h]

theorem fifoPops_wr (o v : Nat) : fifoPops [Ev.wr o v] = [] := by
  simp [fifoPops]

theorem fifoPops_rd (o v : Nat) :
    fifoPops [Ev.rd o v] = if o = SPICTRL_FIFO then [v] else [] := by
  by_cases h : o = SPICTRL_FIFO <;> simp [fifoPops, List.filterMap_cons, h]

theorem offsOk_single (e : Ev) :
    offsOk [e] = (evOff e = 0x0 || evOff e = 0x1 || evOff e = 0x2 ||
      evOff e = 0x4 || evOff e = 0x5) := by
  simp [offsOk]

/-- Shape of a completed busy-wait: it only reads the Status register,
so the storage registers, the FIFO read counter, both FIFO trace
projections and the offset check are unchanged. -/
theorem waitRFNonEmpty_some (hw : Hw) (fuel : Nat) :
    ∀ m m', waitRFNonEmpty hw fuel m = some m' →
      m'.regs = m.regs ∧ m'.fifoReads = m.fifoReads ∧
      fifoPushes m'.trace = fifoPushes m.trace ∧
      fifoPops m'.trace = fifoPops m.trace ∧
      (offsOk m.trace = true → offsOk m'.trace = true) := by
  induction fuel with
  | zero => intro m m' h; simp [waitRFNonEmpty] at h
  | succ fuel ih =>
    intro m m' h
    rw [waitRFNonEmpty] at h
    simp only [mmioRead_spsr] at h
    split at h
    · have step := ih _ _ h
      simp [fifoPushes_append, fifoPops_append, offsOk_append,
        fifoPushes_rd, fifoPops_rd, offsOk_single, evOff,
        SPICTRL_SPSR, SPICTRL_FIFO] at step
      exact ⟨step.1, step.2.1, step.2.2.1, step.2.2.2.1, step.2.2.2.2⟩
    · cases h
      simp [fifoPushes_append, fifoPops_append, offsOk_append,
        fifoPushes_rd, fifoPops_rd, offsOk_single, evOff, SPICTRL_SPSR, SPICTRL_FIFO]

/-! Reading the write buffer in the loops. -/

theorem pushByte_fst (wa : List Nat) (g i : Nat) :
    (pushByte wa g i).1 = wa[i]?.getD g := by
  unfold pushByte; cases h : wa[i]? <;> simp [h]

theorem pushByte_snd (wa : List Nat) (g i : Nat) :
    (pushByte wa g i).2 = wa[i]?.isNone := by
  unfold pushByte; cases h : wa[i]? <;> simp [h]

theorem range_map_succ {α : Type} (f : Nat → α) (n : Nat) :
    (List.range (n + 1)).map f = f 0 :: (List.range n).map (fun j => f (j + 1)) := by
  rw [List.range_succ_eq_map]
  simp [List.map_map, Function.comp]

/-- Shape of a completed write phase: the result buffer is untouched,
the storage registers are unchanged, the phase pushes writearr[i],
writearr[i+1], ... (one byte per iteration) into the FIFO, pops and
discards one byte per iteration, only raises the oob flag, and only
touches the five register offsets. -/
theorem writeLoop_some (hw : Hw) (fuel : Nat) (wa : List Nat) (g : Nat) (n : Nat) :
    ∀ i st st', writeLoop hw fuel wa g n i st = some st' →
      st'.readarr = st.readarr ∧ st'.m.regs = st.m.regs ∧
      fifoPushes st'.m.trace = fifoPushes st.m.trace ++
        (List.range n).map (fun j => wa[i + j]?.getD g % 256) ∧
      (∃ d : List Nat, d.length = n ∧
        fifoPops st'.m.trace = fifoPops st.m.trace ++ d) ∧
      (st.oob = true → st'.oob = true) ∧
      (offsOk st.m.trace = true → offsOk st'.m.trace = true) := by
  induction n with
  | zero => intro i st st' h; cases h; simp
  | succ n ih =>
    intro i st st' h
    rw [writeLoop] at h
    simp only [mmioWrite_fifo, pushByte_fst, pushByte_snd] at h
    split at h
    · cases h
    · rename_i m2 heq
      simp only [mmioRead_fifo] at h
      have hwait := waitRFNonEmpty_some hw fuel _ _ heq
      have tail := ih (i + 1) _ _ h
      simp [fifoPushes_append, fifoPops_append, offsOk_append,
        fifoPushes_rd, fifoPops_rd, fifoPushes_wr, fifoPops_wr, offsOk_single,
        evOff, SPICTRL_FIFO] at hwait tail
      obtain ⟨w1, w2, w3, w4, w5⟩ := hwait
      obtain ⟨t1, t2, t3, ⟨d, hd, hdeq⟩, t5, t6⟩ := tail
      refine ⟨t1, by rw [t2, w1], ?_, ?_, ?_, ?_⟩
      · rw [t3, w3, range_map_succ]
        have harg : ∀ j : Nat, i + 1 + j = i + (j + 1) := by omega
        simp only [harg, Nat.add_zero, List.append_assoc, List.singleton_append]
      · exact ⟨hw.fifoFn m2.fifoReads % 256 :: d, by simp [hd],
          by rw [hdeq, w4]⟩
      · intro ho; exact t5 (Or.inl ho)
      · intro ho; exact t6 (w5 ho)

/-- Shape of a completed read phase: the phase pushes writearr[i],
writearr[i+1], ... (the loop index restarting at 0 in send_command,
not continuing past the write phase), appends exactly the popped bytes
to the result buffer in order, leaves the storage registers unchanged,
raises the oob flag as soon as some iteration indexes past the end of
writearr, and only touches the five register offsets. -/
theorem readLoop_some (hw : Hw) (fuel : Nat) (wa : List Nat) (g : Nat) (n : Nat) :
    ∀ i st st', readLoop hw fuel wa g n i st = some st' →
      (∃ ps : List Nat, ps.length = n ∧ st'.readarr = st.readarr ++ ps ∧
        fifoPops st'.m.trace = fifoPops st.m.trace ++ ps) ∧
      st'.m.regs = st.m.regs ∧
      fifoPushes st'.m.trace = fifoPushes st.m.trace ++
        (List.range n).map (fun j => wa[i + j]?.getD g % 256) ∧
      (st.oob = true → st'.oob = true) ∧
      ((∃ j, j < n ∧ wa[i + j]? = none) → st'.oob = true) ∧
      (offsOk st.m.trace = true → offsOk st'.m.trace = true) := by
  induction n with
  | zero =>
    intro i st st' h; cases h
    exact ⟨⟨[], rfl, by simp, by simp⟩, rfl, by simp, fun h => h,
      by rintro ⟨j, hj, _⟩; omega, fun h => h⟩
  | succ n ih =>
    intro i st st' h
    rw [readLoop] at h
    simp only [mmioWrite_fifo, pushByte_fst, pushByte_snd] at h
    split at h
    · cases h
    · rename_i m2 heq
      simp only [mmioRead_fifo] at h
      have hwait := waitRFNonEmpty_some hw fuel _ _ heq
      have tail := ih (i + 1) _ _ h
      simp [fifoPushes_append, fifoPops_append, offsOk_append,
        fifoPushes_rd, fifoPops_rd, fifoPushes_wr, fifoPops_wr, offsOk_single,
        evOff, SPICTRL_FIFO] at hwait tail
      obtain ⟨w1, w2, w3, w4, w5⟩ := hwait
      obtain ⟨⟨ps, hps, hra, hpo⟩, t2, t3, t4, t5, t6⟩ := tail
      refine ⟨⟨hw.fifoFn m2.fifoReads % 256 :: ps, by simp [hps], ?_, ?_⟩,
        by rw [t2, w1], ?_, ?_, ?_, ?_⟩
      · rw [hra]
      · rw [hpo, w4]
      · rw [t3, w3, range_map_succ]
        have harg : ∀ j : Nat, i + 1 + j = i + (j + 1) := by omega
        simp only [harg, Nat.add_zero, List.append_assoc, List.singleton_append]
      · intro ho; exact t4 (Or.inl ho)
      · rintro ⟨j, hj, hnone⟩
        rcases Nat.eq_zero_or_pos j with hj0 | hjpos
        · subst hj0
          simp only [Nat.add_zero] at hnone
          exact t4 (Or.inr (List.getElem?_eq_none_iff.mp hnone))
        · obtain ⟨j', rfl⟩ := Nat.exists_eq_succ_of_ne_zero (by omega : j ≠ 0)
          refine t5 j' (by omega) ?_
          have hlen := List.getElem?_eq_none_iff.mp hnone
          omega
      · intro ho; exact t6 (w5 ho)

/-- Bit 0 of a Status value is unaffected by byte truncation. -/
theorem and_rfempty_mod256 (v : Nat) :
    v % 256 &&& SPSR_RFEMPTY = v &&& SPSR_RFEMPTY := by
  have h : SPSR_RFEMPTY = 1 := rfl
  rw [h, Nat.and_one_is_mod, Nat.and_one_is_mod]
  exact Nat.mod_mod_of_dvd v (by norm_num)

/-- Shape of a completed drain loop: the storage registers are
unchanged and only the Status and FIFO offsets are touched. -/
theorem drainLoop_some (hw : Hw) (fuel : Nat) :
    ∀ m m', drainLoop hw fuel m = some m' →
      m'.regs = m.regs ∧ (offsOk m.trace = true → offsOk m'.trace = true) := by
  induction fuel with
  | zero => intro m m' h; simp [drainLoop] at h
  | succ fuel ih =>
    intro m m' h
    rw [drainLoop] at h
    simp only [mmioRead_spsr] at h
    split at h
    · simp only [mmioRead_fifo] at h
      have tail := ih _ _ h
      simp [offsOk_append, offsOk_single, evOff, SPICTRL_SPSR, SPICTRL_FIFO] at tail
      exact ⟨tail.1, fun ho => tail.2 ho (by simp [offsOk, evOff])⟩
    · cases h
      simp [offsOk_append, offsOk_single, evOff, SPICTRL_SPSR]

/-- Exact pop count of the drain loop: if Status reports the read FIFO
non-empty for exactly the first K polls, the loop performs exactly K
FIFO pops and K + 1 Status polls, then exits. -/
theorem drainLoop_count (hw : Hw) (K : Nat) :
    ∀ fuel m, (∀ i, hw.statusFn (m.spsrReads + i) &&& SPSR_RFEMPTY = 0 ↔ i < K) →
      K + 1 ≤ fuel →
      ∃ m', drainLoop hw fuel m = some m' ∧
        m'.fifoReads = m.fifoReads + K ∧ m'.spsrReads = m.spsrReads + (K + 1) := by
  induction K with
  | zero =>
    intro fuel m hst hf
    obtain ⟨f, rfl⟩ : ∃ f, fuel = f + 1 := ⟨fuel - 1, by omega⟩
    rw [drainLoop]
    simp only [mmioRead_spsr]
    rw [if_neg]
    · exact ⟨_, rfl, rfl, rfl⟩
    · rw [and_rfempty_mod256]
      have h0 := hst 0
      simp only [Nat.add_zero] at h0
      intro hc
      exact absurd (h0.mp hc) (by omega)
  | succ K ih =>
    intro fuel m hst hf
    obtain ⟨f, rfl⟩ : ∃ f, fuel = f + 1 := ⟨fuel - 1, by omega⟩
    rw [drainLoop]
    simp only [mmioRead_spsr]
    rw [if_pos]
    · simp only [mmioRead_fifo]
      have hst2 : ∀ i, hw.statusFn
          ((⟨m.regs, m.spsrReads + 1, m.fifoReads + 1,
            m.trace ++ [Ev.rd SPICTRL_SPSR (hw.statusFn m.spsrReads % 256)] ++
              [Ev.rd SPICTRL_FIFO (hw.fifoFn m.fifoReads % 256)]⟩ : Mach).spsrReads + i)
            &&& SPSR_RFEMPTY = 0 ↔ i < K := by
        intro i
        have h1 := hst (i + 1)
        have harg : m.spsrReads + (i + 1) = m.spsrReads + 1 + i := by omega
        rw [harg] at h1
        simp only [Mach.spsrReads]
        constructor
        · intro hc; have := h1.mp hc; omega
        · intro hc; exact h1.mpr (by omega)
      obtain ⟨m', hm', hfr, hsr⟩ := ih f _ hst2 (by omega)
      simp only [Mach.fifoReads, Mach.spsrReads] at hfr hsr
      exact ⟨m', hm', by omega, by omega⟩
    · rw [and_rfempty_mod256]
      have h0 := hst 0
      simp only [Nat.add_zero] at h0
      exact h0.mpr (by omega)

/-- A successful init run goes through the SFCP probe, the register
configuration sequence and the drain loop, and ends with a non-null
handle and the drained machine. -/
theorem init_success_shape (env : InitEnv) (fuel : Nat) (m0 : Mach) (r : InitResult)
    (h : loongson3_spi_init env fuel m0 = some r) (hr : r.ret = 0) :
    ∃ b, r.base = some b ∧
      drainLoop env.hw fuel
        (initCfgSeq env.hw (mmioRead env.hw m0 SPICTRL_SFCP).2) = some r.m := by
  unfold loongson3_spi_init at h
  split at h
  · cases h; simp at hr
  · split at h
    · unfold initAfterMap at h
      split at h
      · cases h; simp at hr
      · split at h
        · cases h; simp at hr
        · split at h
          · cases h
          · rename_i m7 heq
            cases h
            exact ⟨_, rfl, heq⟩
    · split at h
      · unfold initAfterMap at h
        split at h
        · cases h; simp at hr
        · split at h
          · cases h; simp at hr
          · split at h
            · cases h
            · rename_i m7 heq
              cases h
              exact ⟨_, rfl, heq⟩
      · cases h; simp at hr

/-! Computation of the machine after the SFCP probe and the register
configuration sequence of init. -/

theorem initCfgSeq_probe_regs (hw : Hw) (m0 : Mach) :
    (initCfgSeq hw (mmioRead hw m0 SPICTRL_SFCP).2).regs =
      ⟨(m0.regs.spcr % 256 ||| (SPCR_MSTR ||| SPCR_SPE)) % 256,
       (m0.regs.sfcp % 256 &&& (255 ^^^ SFCP_MEMEN)) % 256,
       SOFTCS_DESSERT % 256⟩ := by
  simp [initCfgSeq, mmioRead_sfcp, mmioRead_spcr, mmioWrite_softcs,
    mmioWrite_spcr, mmioWrite_sfcp]

theorem initCfgSeq_probe_spsr (hw : Hw) (m0 : Mach) :
    (initCfgSeq hw (mmioRead hw m0 SPICTRL_SFCP).2).spsrReads = m0.spsrReads := by
  simp [initCfgSeq, mmioRead_sfcp, mmioRead_spcr, mmioWrite_softcs,
    mmioWrite_spcr, mmioWrite_sfcp]

theorem initCfgSeq_probe_fifoReads (hw : Hw) (m0 : Mach) :
    (initCfgSeq hw (mmioRead hw m0 SPICTRL_SFCP).2).fifoReads = m0.fifoReads := by
  simp [initCfgSeq, mmioRead_sfcp, mmioRead_spcr, mmioWrite_softcs,
    mmioWrite_spcr, mmioWrite_sfcp]

theorem initCfgSeq_probe_offs (hw : Hw) (m0 : Mach) (ho : offsOk m0.trace = true) :
    offsOk (initCfgSeq hw (mmioRead hw m0 SPICTRL_SFCP).2).trace = true := by
  simp only [initCfgSeq, mmioRead_sfcp, mmioRead_spcr, mmioWrite_softcs,
    mmioWrite_spcr, mmioWrite_sfcp]
  simp only [offsOk_append, ho, Bool.true_and]
  simp [offsOk, evOff, SPICTRL_SFCP, SPICTRL_SPCR, SPICTRL_SOFTCS]

/-! Bit-level facts about the two read-modify-write masks. -/

theorem or80_testBit (a k : Nat) (h4 : k ≠ 4) (h6 : k ≠ 6) :
    (a ||| 80).testBit k = a.testBit k := by
  rw [Nat.testBit_or]
  have h80 : Nat.testBit 80 k = false := by
    rw [show (80 : Nat) = 2 ^ 4 ||| 2 ^ 6 from by decide, Nat.testBit_or,
      Nat.testBit_two_pow, Nat.testBit_two_pow]
    simp [Ne.symm h4, Ne.symm h6]
  rw [h80, Bool.or_false]

theorem and254_testBit (a k : Nat) (ha : a < 256) (h0 : k ≠ 0) :
    (a &&& 254).testBit k = a.testBit k := by
  have h254 : (254 : Nat) = (2 ^ 8 - 1) ^^^ 2 ^ 0 := by decide
  by_cases hk : k < 8
  · rw [Nat.testBit_and]
    have h254b : Nat.testBit 254 k = true := by
      rw [h254, Nat.testBit_xor, Nat.testBit_two_pow_sub_one, Nat.testBit_two_pow]
      simp [hk, Ne.symm h0]
    rw [h254b, Bool.and_true]
  · have hpow : (256 : Nat) ≤ 2 ^ k := by
      calc (256 : Nat) = 2 ^ 8 := by norm_num
      _ ≤ 2 ^ k := Nat.pow_le_pow_right (by norm_num) (by omega)
    have h1 : a.testBit k = false := Nat.testBit_lt_two_pow (by omega)
    have h2 : (a &&& 254).testBit k = false := by
      refine Nat.testBit_lt_two_pow ?_
      have hle := @Nat.and_le_right a 254
      omega
    rw [h1, h2]

/-! Path lemmas for init. -/

/-- Whatever happens after the mapping attempt, the recorded rphysmap
calls are exactly the ones passed in. -/
theorem initAfterMap_calls (env : InitEnv) (fuel : Nat) (m0 : Mach)
    (base : Option Nat) (calls : List MapCall) :
    ∀ r, initAfterMap env fuel m0 base calls = some r → r.mapCalls = calls := by
  intro r h
  unfold initAfterMap at h
  split at h
  · cases h; rfl
  · split at h
    · cases h; rfl
    · split at h
      · cases h
      · cases h; rfl

/-- Every register access after the mapping attempt is at one of the
five register offsets. -/
theorem initAfterMap_offs (env : InitEnv) (fuel : Nat) (m0 : Mach)
    (base : Option Nat) (calls : List MapCall) (r : InitResult)
    (h : initAfterMap env fuel m0 base calls = some r)
    (ho : offsOk m0.trace = true) : offsOk r.m.trace = true := by
  unfold initAfterMap at h
  split at h
  · cases h; exact ho
  · split at h
    · cases h
      simp only [mmioRead_sfcp]
      simp [offsOk_append, offsOk_single, evOff, SPICTRL_SFCP, ho]
    · split at h
      · cases h
      · rename_i m7 heq
        cases h
        exact (drainLoop_some env.hw fuel _ _ heq).2 (initCfgSeq_probe_offs env.hw m0 ho)

/-- Forward run of init through the 64C branch. -/
theorem init_run_64c (env : InitEnv) (fuel : Nat) (m0 : Mach) (c : String) (b : Nat)
    (m7 : Mach) (hc : env.cpu = some c) (h64 : cpu_is_loongson64c c = true)
    (hmap : env.mapFn LOONGSON64C_SPI_BASE = some b) (hreg : env.regShutdownOk = true)
    (hdrain : drainLoop env.hw fuel
      (initCfgSeq env.hw (mmioRead env.hw m0 SPICTRL_SFCP).2) = some m7) :
    loongson3_spi_init env fuel m0 =
      some ⟨0, some b,
        [⟨"Loongson64C SPICTRL", LOONGSON64C_SPI_BASE, LOONGSON3_SPI_REG_SIZE⟩], m7⟩ := by
  unfold loongson3_spi_init initAfterMap
  rw [hc]
  simp [h64, hmap, hreg, hdrain]

/-- Forward run of init through the 64G branch. -/
theorem init_run_64g (env : InitEnv) (fuel : Nat) (m0 : Mach) (c : String) (b : Nat)
    (m7 : Mach) (hc : env.cpu = some c) (h64c : cpu_is_loongson64c c = false)
    (h64 : cpu_is_loongson64g c = true)
    (hmap : env.mapFn LOONGSON64G_SPI_BASE = some b) (hreg : env.regShutdownOk = true)
    (hdrain : drainLoop env.hw fuel
      (initCfgSeq env.hw (mmioRead env.hw m0 SPICTRL_SFCP).2) = some m7) :
    loongson3_spi_init env fuel m0 =
      some ⟨0, some b,
        [⟨"Loongson64G SPICTRL", LOONGSON64G_SPI_BASE, LOONGSON3_SPI_REG_SIZE⟩], m7⟩ := by
  unfold loongson3_spi_init initAfterMap
  rw [hc]
  simp [h64c, h64, hmap, hreg, hdrain]

/-- The two platform groups are disjoint. -/
theorem groups_disjoint (c : String) (h : cpu_is_loongson64g c = true) :
    cpu_is_loongson64c c = false := by
  simp [cpu_is_loongson64g] at h
  rcases h with rfl | rfl <;> simp [cpu_is_loongson64c]

/-- C2: the tear-down body is guarded by if (!spictrl_base), so for a
handle set by a successful bring-up (non-null base) shutdown performs
no register write at all: it returns 0 with the machine unchanged.
This refutes the claim that the Soft-Chip-Select and Read-Engine-Enable
writes are never skipped; the spec itself flags the inverted guard as a
defect, so the code, not the claim, is wrong. -/
theorem C2_shutdown_noop_when_handle_set (hw : Hw) (b : Nat) (m0 : Mach) :
    loongson3_spi_shutdown hw (some b) m0 = (0, m0) := rfl

/-- C3: the read phase of send_command indexes the write buffer at 0
through readcnt-1, so whenever readcnt exceeds the length of writearr
(for instance a 1-byte identify command with a 3-byte read) some read
iteration indexes past the end of the buffer: in this total embedding,
where indexing yields an Option, the out-of-range branch is taken and
the oob flag of the result is set. -/
theorem C3_read_phase_out_of_bounds (hw : Hw) (fuel g rc : Nat) (wa : List Nat)
    (m0 : Mach) (r : SCResult) (hrc : wa.length < rc)
    (h : loongson3_spi_send_command hw fuel g wa.length rc wa m0 = some r) :
    r.oob = true := by
  unfold loongson3_spi_send_command at h
  split at h
  · cases h
  · rename_i st1 heq1
    split at h
    · cases h
    · rename_i st2 heq2
      cases h
      have hr := readLoop_some hw fuel wa g rc 0 st1 st2 heq2
      exact hr.2.2.2.2.1 ⟨wa.length, hrc, by simp⟩

/-- C3 witness: the identify-style exchange, 1 write byte and 3 read
bytes, takes the out-of-range branch. -/
theorem C3_witness :
    ((loongson3_spi_send_command hwReady 1 0xEE 1 3 [0x9F] mach0).getD
      ⟨0, [], mach0, false⟩).oob = true :=
  C3_read_phase_out_of_bounds hwReady 1 0xEE 3 [0x9F] mach0 _ (by decide) rfl

/-- C7: send_command returns 0 on every run in which all busy-waits
unblock; the transaction engine produces no error value. -/
theorem C7_send_command_always_succeeds (hw : Hw) (fuel g wc rc : Nat)
    (wa : List Nat) (m0 : Mach) (r : SCResult)
    (h : loongson3_spi_send_command hw fuel g wc rc wa m0 = some r) :
    r.ret = 0 := by
  unfold loongson3_spi_send_command at h
  split at h
  · cases h
  · split at h
    · cases h
    · cases h; rfl

/-- C7 witness: a concrete completed transaction returns 0. -/
theorem C7_witness :
    ((loongson3_spi_send_command hwReady 1 0 1 2 [0x9F, 0xA1] mach0).getD
      ⟨7, [], mach0, false⟩).ret = 0 :=
  C7_send_command_always_succeeds hwReady 1 0 1 2 [0x9F, 0xA1] mach0 _ rfl

/-- C8: shutdown returns 0 for every handle state and register state;
the tear-down path has no failure mode. -/
theorem C8_shutdown_always_returns_zero (hw : Hw) (base : Option Nat) (m0 : Mach) :
    (loongson3_spi_shutdown hw base m0).1 = 0 := by
  unfold loongson3_spi_shutdown
  split <;> rfl

/-- C9: the empty transaction send_command([], 0) writes the assert
encoding and then immediately the deassert encoding to Soft-Chip-Select,
with no FIFO access, no Status poll, and an untouched result buffer. -/
theorem C9_empty_transaction (hw : Hw) (fuel g : Nat) (m0 : Mach) :
    loongson3_spi_send_command hw fuel g 0 0 [] m0 =
      some ⟨0, [],
        { m0 with regs := { m0.regs with softcs := SOFTCS_DESSERT % 256 },
                  trace := m0.trace ++ [Ev.wr SPICTRL_SOFTCS (SOFTCS_ASSERT % 256),
                                        Ev.wr SPICTRL_SOFTCS (SOFTCS_DESSERT % 256)] },
        false⟩ := by
  simp [loongson3_spi_send_command, writeLoop, readLoop, mmioWrite_softcs]

/-- A Soft-Chip-Select write adds no FIFO push to the trace. -/
theorem fifoPushes_softcs (m : Mach) (v : Nat) :
    fifoPushes (mmioWrite m SPICTRL_SOFTCS v).trace = fifoPushes m.trace := by
  rw [mmioWrite_softcs]
  simp [fifoPushes_append, fifoPushes_wr, SPICTRL_SOFTCS, SPICTRL_FIFO]

/-- A Soft-Chip-Select write adds no FIFO pop to the trace. -/
theorem fifoPops_softcs (m : Mach) (v : Nat) :
    fifoPops (mmioWrite m SPICTRL_SOFTCS v).trace = fifoPops m.trace := by
  rw [mmioWrite_softcs]
  simp [fifoPops_append, fifoPops_wr]

/-- C1 (amended): in every completed send_command run the FIFO pushes
are writearr[0..writecnt-1] for the write phase followed by
writearr[0..readcnt-1] for the read phase — the read-phase loop index
restarts at 0, it does not continue at writecnt — and each read
iteration appends the byte it pops as the next result byte, so the
result is exactly the last readcnt pops in order. -/
theorem C1_read_phase_indexing (hw : Hw) (fuel g wc rc : Nat) (wa : List Nat)
    (m0 : Mach) (r : SCResult)
    (h : loongson3_spi_send_command hw fuel g wc rc wa m0 = some r) :
    fifoPushes r.m.trace = fifoPushes m0.trace ++
      (List.range wc).map (fun i => wa[i]?.getD g % 256) ++
      (List.range rc).map (fun i => wa[i]?.getD g % 256) ∧
    r.readarr.length = rc ∧
    (∃ d : List Nat, d.length = wc ∧
      fifoPops r.m.trace = fifoPops m0.trace ++ d ++ r.readarr) := by
  unfold loongson3_spi_send_command at h
  split at h
  · cases h
  · rename_i st1 heq1
    split at h
    · cases h
    · rename_i st2 heq2
      cases h
      obtain ⟨wra, -, wpu, ⟨d, hdlen, hdpop⟩, -, -⟩ :=
        writeLoop_some hw fuel wa g wc 0 _ st1 heq1
      obtain ⟨⟨ps, hpslen, hra, hpop⟩, -, rpu, -, -, -⟩ :=
        readLoop_some hw fuel wa g rc 0 st1 st2 heq2
      refine ⟨?_, ?_, ⟨d, hdlen, ?_⟩⟩
      · simp only [fifoPushes_softcs]
        rw [rpu, wpu]
        simp [fifoPushes_softcs]
      · simp [hra, wra, hpslen]
      · simp only [fifoPops_softcs]
        rw [hpop, hdpop]
        simp [fifoPops_softcs, hra, wra]

/-- C1 counterexample: for the identify-style call with write buffer
[0x9F, 0xA1, 0xA2, 0xA3], writecnt 1 and readcnt 3, the bytes pushed
during the read phase (the pushes after the single write-phase push)
are writearr[0], writearr[1], writearr[2] = 0x9F, 0xA1, 0xA2 — not
writearr[1], writearr[2], writearr[3] = 0xA1, 0xA2, 0xA3 as the claim
states. -/
theorem C1_counterexample :
    List.drop 1 (fifoPushes scIdRun.m.trace) = [0x9F, 0xA1, 0xA2] ∧
    List.drop 1 (fifoPushes scIdRun.m.trace) ≠ [0xA1, 0xA2, 0xA3] := by
  constructor
  · decide
  · decide

/-- C1 witness: the push characterization evaluated on a concrete
2-byte write, 2-byte read exchange. -/
theorem C1_witness :
    fifoPushes (((loongson3_spi_send_command hwReady 1 0xEE 2 2 [0x9F, 0xA1] mach0).getD
        ⟨0, [], mach0, false⟩).m.trace) =
      fifoPushes mach0.trace ++
        (List.range 2).map (fun i => [0x9F, 0xA1][i]?.getD 0xEE % 256) ++
        (List.range 2).map (fun i => [0x9F, 0xA1][i]?.getD 0xEE % 256) :=
  (C1_read_phase_indexing hwReady 1 0xEE 2 2 [0x9F, 0xA1] mach0 _ rfl).1

/-- C4: init maps the register block at the 64C base address 0x1fe00220
for every identifier of the 64C group, at the 64G base address
0x1fe001f0 for every identifier of the 64G group, and for any other
identifier — or an absent cpu parameter — returns the non-zero
configuration status 1 having performed no register access and no
mapping call. -/
theorem C4_platform_base_selection (env : InitEnv) (fuel : Nat) (m0 : Mach) (c : String) :
    (c ∈ ["3b1500", "3a2000", "3b2000", "3a3000", "3b3000"] → env.cpu = some c →
      ∀ r, loongson3_spi_init env fuel m0 = some r →
        r.mapCalls = [⟨"Loongson64C SPICTRL", LOONGSON64C_SPI_BASE, LOONGSON3_SPI_REG_SIZE⟩]) ∧
    (c ∈ ["3a4000", "3b4000"] → env.cpu = some c →
      ∀ r, loongson3_spi_init env fuel m0 = some r →
        r.mapCalls = [⟨"Loongson64G SPICTRL", LOONGSON64G_SPI_BASE, LOONGSON3_SPI_REG_SIZE⟩]) ∧
    (c ∉ ["3b1500", "3a2000", "3b2000", "3a3000", "3b3000"] →
      c ∉ ["3a4000", "3b4000"] → env.cpu = some c →
      loongson3_spi_init env fuel m0 = some ⟨1, none, [], m0⟩) ∧
    (env.cpu = none → loongson3_spi_init env fuel m0 = some ⟨1, none, [], m0⟩) := by
  refine ⟨?_, ?_, ?_, ?_⟩
  · intro hmem hc r h
    have h64 : cpu_is_loongson64c c = true := by
      simp only [List.mem_cons, List.not_mem_nil, or_false] at hmem
      simp [cpu_is_loongson64c]
      tauto
    unfold loongson3_spi_init at h
    rw [hc] at h
    simp only [h64, if_true] at h
    exact initAfterMap_calls env fuel m0 _ _ r h
  · intro hmem hc r h
    have h64 : cpu_is_loongson64g c = true := by
      simp only [List.mem_cons, List.not_mem_nil, or_false] at hmem
      simp [cpu_is_loongson64g]
      tauto
    have h64c : cpu_is_loongson64c c = false := groups_disjoint c h64
    unfold loongson3_spi_init at h
    rw [hc] at h
    simp only [h64c, h64, if_true, Bool.false_eq_true, if_false] at h
    exact initAfterMap_calls env fuel m0 _ _ r h
  · intro hm1 hm2 hc
    have h1 : cpu_is_loongson64c c = false := by
      simp only [List.mem_cons, List.not_mem_nil, or_false] at hm1
      simp [cpu_is_loongson64c]
      tauto
    have h2 : cpu_is_loongson64g c = false := by
      simp only [List.mem_cons, List.not_mem_nil, or_false] at hm2
      simp [cpu_is_loongson64g]
      tauto
    unfold loongson3_spi_init
    rw [hc]
    simp [h1, h2]
  · intro hc
    unfold loongson3_spi_init
    rw [hc]

/-- C4 witness: the four branches evaluated on concrete environments. -/
theorem C4_witness :
    init64cRun.mapCalls =
      [⟨"Loongson64C SPICTRL", LOONGSON64C_SPI_BASE, LOONGSON3_SPI_REG_SIZE⟩] ∧
    init64gRun.mapCalls =
      [⟨"Loongson64G SPICTRL", LOONGSON64G_SPI_BASE, LOONGSON3_SPI_REG_SIZE⟩] ∧
    loongson3_spi_init envBad 2 mach0 = some ⟨1, none, [], mach0⟩ ∧
    loongson3_spi_init envNoCpu 2 mach0 = some ⟨1, none, [], mach0⟩ :=
  ⟨(C4_platform_base_selection env64c 2 mach0 "3b1500").1 (by decide) rfl init64cRun rfl,
   (C4_platform_base_selection env64g 2 mach0 "3a4000").2.1 (by decide) rfl init64gRun rfl,
   (C4_platform_base_selection envBad 2 mach0 "epyc").2.2.1 (by decide) (by decide) rfl,
   (C4_platform_base_selection envNoCpu 2 mach0 "x").2.2.2 rfl⟩

/-- C5: after a successful bring-up the Control register has the
master-mode bit (4) and SPI-enable bit (6) set, the Read-Engine-Enable
register has its enable bit (0) clear, and every other bit of both
registers keeps the value it held before bring-up: the two
read-modify-write sequences preserve unrelated bits. -/
theorem C5_init_rmw_preserves_bits (env : InitEnv) (fuel : Nat) (m0 : Mach)
    (r : InitResult) (h : loongson3_spi_init env fuel m0 = some r) (hr : r.ret = 0)
    (hspcr : m0.regs.spcr < 256) (hsfcp : m0.regs.sfcp < 256) :
    r.m.regs.spcr.testBit 4 = true ∧ r.m.regs.spcr.testBit 6 = true ∧
    r.m.regs.sfcp.testBit 0 = false ∧
    (∀ k, k ≠ 4 → k ≠ 6 → r.m.regs.spcr.testBit k = m0.regs.spcr.testBit k) ∧
    (∀ k, k ≠ 0 → r.m.regs.sfcp.testBit k = m0.regs.sfcp.testBit k) := by
  obtain ⟨b, hb, hdrain⟩ := init_success_shape env fuel m0 r h hr
  have hregs := (drainLoop_some env.hw fuel _ _ hdrain).1
  rw [initCfgSeq_probe_regs] at hregs
  have hsp : r.m.regs.spcr = m0.regs.spcr ||| 80 := by
    rw [hregs]
    show (m0.regs.spcr % 256 ||| (SPCR_MSTR ||| SPCR_SPE)) % 256 = m0.regs.spcr ||| 80
    rw [show SPCR_MSTR ||| SPCR_SPE = 80 from rfl, Nat.mod_eq_of_lt hspcr]
    refine Nat.mod_eq_of_lt ?_
    have h256 : (256 : Nat) = 2 ^ 8 := by norm_num
    rw [h256]
    exact Nat.or_lt_two_pow (by omega) (by norm_num)
  have hsf : r.m.regs.sfcp = m0.regs.sfcp &&& 254 := by
    rw [hregs]
    show (m0.regs.sfcp % 256 &&& (255 ^^^ SFCP_MEMEN)) % 256 = m0.regs.sfcp &&& 254
    rw [show (255 ^^^ SFCP_MEMEN : Nat) = 254 from rfl, Nat.mod_eq_of_lt hsfcp]
    refine Nat.mod_eq_of_lt ?_
    have h256 : (256 : Nat) = 2 ^ 8 := by norm_num
    rw [h256]
    exact Nat.and_lt_two_pow _ (by norm_num)
  refine ⟨?_, ?_, ?_, ?_, ?_⟩
  · rw [hsp, Nat.testBit_or, show Nat.testBit 80 4 = true from by decide, Bool.or_true]
  · rw [hsp, Nat.testBit_or, show Nat.testBit 80 6 = true from by decide, Bool.or_true]
  · rw [hsf, Nat.testBit_and, show Nat.testBit 254 0 = false from by decide,
      Bool.and_false]
  · intro k h4 h6
    rw [hsp]
    exact or80_testBit _ k h4 h6
  · intro k h0
    rw [hsf]
    exact and254_testBit _ k hsfcp h0

/-- C5 witness: bring-up on a machine whose registers are pre-seeded
with unrelated bits (Control 0xAB, Read-Engine-Enable 0xCD): the
targeted bits end as required and untargeted sample bits persist. -/
theorem C5_witness :
    initSeedRun.m.regs.spcr.testBit 4 = true ∧
    initSeedRun.m.regs.spcr.testBit 6 = true ∧
    initSeedRun.m.regs.sfcp.testBit 0 = false ∧
    initSeedRun.m.regs.spcr.testBit 3 = machSeed.regs.spcr.testBit 3 ∧
    initSeedRun.m.regs.sfcp.testBit 5 = machSeed.regs.sfcp.testBit 5 :=
  ⟨(C5_init_rmw_preserves_bits env64c 2 machSeed initSeedRun rfl rfl (by decide)
      (by decide)).1,
   (C5_init_rmw_preserves_bits env64c 2 machSeed initSeedRun rfl rfl (by decide)
      (by decide)).2.1,
   (C5_init_rmw_preserves_bits env64c 2 machSeed initSeedRun rfl rfl (by decide)
      (by decide)).2.2.1,
   (C5_init_rmw_preserves_bits env64c 2 machSeed initSeedRun rfl rfl (by decide)
      (by decide)).2.2.2.1 3 (by decide) (by decide),
   (C5_init_rmw_preserves_bits env64c 2 machSeed initSeedRun rfl rfl (by decide)
      (by decide)).2.2.2.2 5 (by decide)⟩

/-- C6: if the Status oracle reports the read FIFO non-empty for
exactly the first K polls and empty thereafter, a successful init run
performs exactly K FIFO pops before registering the transport —
in particular zero pops when Status reports empty on the first poll. -/
theorem C6_init_drains_exactly_K (env : InitEnv) (fuel : Nat) (m0 : Mach)
    (c : String) (b K : Nat) (hc : env.cpu = some c)
    (hgrp : (cpu_is_loongson64c c = true ∧ env.mapFn LOONGSON64C_SPI_BASE = some b) ∨
            (cpu_is_loongson64g c = true ∧ env.mapFn LOONGSON64G_SPI_BASE = some b))
    (hreg : env.regShutdownOk = true)
    (hst : ∀ i, env.hw.statusFn (m0.spsrReads + i) &&& SPSR_RFEMPTY = 0 ↔ i < K)
    (hfuel : K + 1 ≤ fuel) :
    (loongson3_spi_init env fuel m0).map (fun r => (r.ret, r.m.fifoReads)) =
      some (0, m0.fifoReads + K) := by
  have hst2 : ∀ i, env.hw.statusFn
      ((initCfgSeq env.hw (mmioRead env.hw m0 SPICTRL_SFCP).2).spsrReads + i)
        &&& SPSR_RFEMPTY = 0 ↔ i < K := by
    intro i; rw [initCfgSeq_probe_spsr]; exact hst i
  obtain ⟨m7, hdrain, hfr, hsr⟩ := drainLoop_count env.hw K fuel _ hst2 hfuel
  have hfr2 : m7.fifoReads = m0.fifoReads + K := by
    rw [hfr, initCfgSeq_probe_fifoReads]
  rcases hgrp with ⟨h64, hmap⟩ | ⟨h64, hmap⟩
  · rw [init_run_64c env fuel m0 c b m7 hc h64 hmap hreg hdrain]
    simp [hfr2]
  · rw [init_run_64g env fuel m0 c b m7 hc (groups_disjoint c h64) h64 hmap hreg hdrain]
    simp [hfr2]

/-- C6 witness: with a Status oracle reporting non-empty for exactly
the first two polls, a 64C bring-up performs exactly two FIFO pops. -/
theorem C6_witness :
    (loongson3_spi_init (env64cK 2) 3 mach0).map (fun r => (r.ret, r.m.fifoReads)) =
      some (0, 2) :=
  C6_init_drains_exactly_K (env64cK 2) 3 mach0 "3b1500" 0x1000 2 rfl
    (Or.inl ⟨by decide, rfl⟩) rfl
    (by
      intro i
      by_cases h : i < 2 <;>
        simp [env64cK, hwDrainK, mach0, h, SPSR_RFEMPTY])
    (by omega)

/-- C10: whenever init returns 0 the controller handle is non-null, and
every register access performed by init, send_command and shutdown is
at one of the fixed offsets 0x0, 0x1, 0x2, 0x4, 0x5 from the handle
(each operation keeps the trace within those offsets). -/
theorem C10_handle_and_register_offsets :
    (∀ env fuel m0 r, loongson3_spi_init env fuel m0 = some r → r.ret = 0 →
      r.base.isSome = true) ∧
    (∀ env fuel m0 r, loongson3_spi_init env fuel m0 = some r →
      offsOk m0.trace = true → offsOk r.m.trace = true) ∧
    (∀ hw fuel g wc rc wa m0 r,
      loongson3_spi_send_command hw fuel g wc rc wa m0 = some r →
      offsOk m0.trace = true → offsOk r.m.trace = true) ∧
    (∀ hw base m0, offsOk m0.trace = true →
      offsOk (loongson3_spi_shutdown hw base m0).2.trace = true) := by
  refine ⟨?_, ?_, ?_, ?_⟩
  · intro env fuel m0 r h hr
    obtain ⟨b, hb, -⟩ := init_success_shape env fuel m0 r h hr
    rw [hb]; rfl
  · intro env fuel m0 r h ho
    unfold loongson3_spi_init at h
    split at h
    · cases h; exact ho
    · split at h
      · exact initAfterMap_offs env fuel m0 _ _ r h ho
      · split at h
        · exact initAfterMap_offs env fuel m0 _ _ r h ho
        · cases h; exact ho
  · intro hw fuel g wc rc wa m0 r h ho
    unfold loongson3_spi_send_command at h
    split at h
    · cases h
    · rename_i st1 heq1
      split at h
      · cases h
      · rename_i st2 heq2
        cases h
        have h0 : offsOk (mmioWrite m0 SPICTRL_SOFTCS SOFTCS_ASSERT).trace = true := by
          rw [mmioWrite_softcs]
          simp only [offsOk_append, ho, Bool.true_and]
          simp [offsOk, evOff, SPICTRL_SOFTCS]
        have h1 := (writeLoop_some hw fuel wa g wc 0 _ st1 heq1).2.2.2.2.2 h0
        have h2 := (readLoop_some hw fuel wa g rc 0 st1 st2 heq2).2.2.2.2.2 h1
        show offsOk (mmioWrite st2.m SPICTRL_SOFTCS SOFTCS_DESSERT).trace = true
        rw [mmioWrite_softcs]
        simp only [offsOk_append, h2, Bool.true_and]
        simp [offsOk, evOff, SPICTRL_SOFTCS]
  · intro hw base m0 ho
    unfold loongson3_spi_shutdown
    split
    · simp only [mmioWrite_softcs, mmioRead_sfcp, mmioWrite_sfcp]
      simp only [offsOk_append, ho, Bool.true_and]
      simp [offsOk, evOff, SPICTRL_SOFTCS, SPICTRL_SFCP]
    · exact ho

/-- C10 witness: the invariant evaluated on a concrete bring-up, a
concrete transaction and a concrete tear-down. -/
theorem C10_witness :
    init64cRun.base.isSome = true ∧
    offsOk init64cRun.m.trace = true ∧
    offsOk scIdRun.m.trace = true ∧
    offsOk (loongson3_spi_shutdown hwReady none mach0).2.trace = true :=
  ⟨C10_handle_and_register_offsets.1 env64c 2 mach0 init64cRun rfl rfl,
   C10_handle_and_register_offsets.2.1 env64c 2 mach0 init64cRun rfl rfl,
   C10_handle_and_register_offsets.2.2.1 hwReady 1 0xEE 1 3 [0x9F, 0xA1, 0xA2, 0xA3]
     mach0 scIdRun rfl rfl,
   C10_handle_and_register_offsets.2.2.2 hwReady none mach0 rfl⟩
